import Mathlib

/-!
Shallow embedding of the portfolio performance and returns calculation core of
the investment-dashboard backend (`app/models/allocation.py`,
`app/utils/calculations.py`, `app/api/v1/allocations.py`,
`app/api/v1/dashboard.py`), together with theorems settling the spec claims.

Conventions: Python `Decimal` and `float` values are modelled as `ℚ` (the
arithmetic performed by the code on them is exact field arithmetic in every
expression the claims mention); calendar dates and datetimes are modelled as
`ℕ` (only their ordering and equality matter); `None` becomes `Option.none`.
-/

namespace InvestmentDashboard

/-- Asset row (`app/models/asset.py`): only `current_price` is consumed by the
position valuator; it is nullable. -/
structure Asset where
  current_price : Option ℚ
deriving Repr, DecidableEq

/-- Allocation row (`app/models/allocation.py`): a client's position in one
asset.  Only the fields read or written by the embedded operations are kept. -/
structure Allocation where
  asset_id : ℕ
  quantity : ℚ
  purchase_price : ℚ
  purchase_date : ℕ
  total_invested : ℚ
  fees : ℚ
  is_active : Bool
  exit_price : Option ℚ
  exit_date : Option ℕ
  exit_fees : ℚ
  unrealized_gain_loss : Option ℚ
  unrealized_gain_loss_percent : Option ℚ
  realized_gain_loss : Option ℚ
deriving Repr, DecidableEq

/-- Price bar (`app/models/daily_return.py`, class `DailyReturn`): one row per
(asset, calendar date); `close_price` is the valuation input. -/
structure DailyReturn where
  asset_id : ℕ
  date : ℕ
  close_price : ℚ
deriving Repr, DecidableEq

/-- `Allocation.total_cost` property: `total_invested + fees`. -/
def Allocation.total_cost (a : Allocation) : ℚ :=
  a.total_invested + a.fees

/-- `Allocation.current_value` property: `quantity * asset.current_price` when
the allocation has an asset with a truthy (non-null, non-zero) current price,
else `Decimal('0')`.  The related asset is passed explicitly. -/
def Allocation.current_value (a : Allocation) (asset : Option Asset) : ℚ :=
  match asset with
  | none => 0
  | some s =>
    match s.current_price with
    | none => 0
    | some p => if p = 0 then 0 else a.quantity * p

/-- `Allocation.gain_loss_amount` property: `current_value - total_cost`. -/
def Allocation.gain_loss_amount (a : Allocation) (asset : Option Asset) : ℚ :=
  a.current_value asset - a.total_cost

/-- `Allocation.gain_loss_percent` property: `gain_loss_amount / total_cost *
100` when `total_cost > 0`, else `Decimal('0')`. -/
def Allocation.gain_loss_percent (a : Allocation) (asset : Option Asset) : ℚ :=
  if 0 < a.total_cost then a.gain_loss_amount asset / a.total_cost * 100 else 0

/-- `Allocation.close_position` (`app/models/allocation.py` lines 111-125).
`exit_date or func.now()` is `Option.getD now`; `exit_fees or Decimal('0')` is
`Option.getD 0` (a passed `Decimal('0')` is falsy in Python and yields
`Decimal('0')` again, so the two agree on every input). -/
def Allocation.close_position (a : Allocation) (exit_price : ℚ)
    (exit_date : Option ℕ) (exit_fees : Option ℚ) (now : ℕ) : Allocation :=
  let ef := exit_fees.getD 0
  { a with
    is_active := false
    exit_price := some exit_price
    exit_date := some (exit_date.getD now)
    exit_fees := ef
    realized_gain_loss := some (a.quantity * exit_price - (a.total_cost + ef))
    unrealized_gain_loss := none
    unrealized_gain_loss_percent := none }

/-- Request body for the close endpoint (`app/schemas/allocation.py`, class
`AllocationClose`): `exit_price > 0` enforced by the schema, `exit_date`
optional, `exit_fees` defaults to `Decimal('0')` and is never `None`. -/
structure AllocationClose where
  exit_price : ℚ
  exit_date : Option ℕ
  exit_fees : ℚ
deriving Repr, DecidableEq

/-- Error outcomes of the close endpoint, mirroring the two distinct
`HTTPException`s raised in `close_allocation` before any mutation. -/
inductive CloseError where
  | notFound
  | alreadyClosed
deriving Repr, DecidableEq

/-- `close_allocation` endpoint (`app/api/v1/allocations.py` lines 177-212).
The input is the result of `db.get` (`none` when the row is missing); the
output pairs the HTTP outcome with the post-call state of that row. -/
def close_allocation (alloc : Option Allocation) (close_data : AllocationClose)
    (now : ℕ) : Except CloseError Unit × Option Allocation :=
  match alloc with
  | none => (Except.error CloseError.notFound, none)
  | some allocation =>
    if !allocation.is_active then
      (Except.error CloseError.alreadyClosed, some allocation)
    else
      (Except.ok (),
       some (allocation.close_position close_data.exit_price
              close_data.exit_date (some close_data.exit_fees) now))

/-- Request body for allocation creation (`app/schemas/allocation.py`, class
`AllocationCreate`): schema constraints are `quantity > 0`,
`purchase_price > 0`, `fees >= 0`. -/
structure AllocationCreate where
  asset_id : ℕ
  quantity : ℚ
  purchase_price : ℚ
  purchase_date : ℕ
  fees : ℚ
deriving Repr, DecidableEq

/-- Error outcomes of the create endpoint. -/
inductive CreateError where
  | clientNotFound
  | assetNotFound
deriving Repr, DecidableEq

/-- `create_allocation` endpoint (`app/api/v1/allocations.py` lines 100-138):
after the client and asset existence checks, builds the row with
`total_invested = quantity * purchase_price` and the model defaults
(`is_active = True`, exit fields null, `exit_fees = 0`, performance fields
null). -/
def create_allocation (client : Option Unit) (asset : Option Asset)
    (d : AllocationCreate) : Except CreateError Allocation :=
  match client with
  | none => Except.error CreateError.clientNotFound
  | some _ =>
    match asset with
    | none => Except.error CreateError.assetNotFound
    | some _ =>
      Except.ok
        { asset_id := d.asset_id
          quantity := d.quantity
          purchase_price := d.purchase_price
          purchase_date := d.purchase_date
          total_invested := d.quantity * d.purchase_price
          fees := d.fees
          is_active := true
          exit_price := none
          exit_date := none
          exit_fees := 0
          unrealized_gain_loss := none
          unrealized_gain_loss_percent := none
          realized_gain_loss := none }

/-! ### `app/utils/calculations.py` -/

/-- Lookup in the `asset_prices` nested dict built by `calculate_daily_returns`
(lines 49-51): the dict is filled front-to-back, so for a duplicate
(asset, date) key the last bar wins; searching the reversed list finds it. -/
def priceOf (price_history : List DailyReturn) (aid d : ℕ) : Option ℚ :=
  (price_history.reverse.find? (fun b => b.asset_id = aid && b.date = d)).map
    (fun b => b.close_price)

/-- `all_dates = sorted(list(set(p.date for p in price_history)))` (line 54). -/
def allDates (price_history : List DailyReturn) : List ℕ :=
  List.insertionSort (· ≤ ·) (price_history.map (fun b => b.date)).dedup

/-- `day_value` for one day (lines 62-66): sum of `quantity * price` over the
allocations whose asset has a bar on that exact date, skipping falsy (absent
or zero) prices. -/
def dayValue (allocations : List Allocation) (price_history : List DailyReturn)
    (d : ℕ) : ℚ :=
  allocations.foldl
    (fun acc a =>
      match priceOf price_history a.asset_id d with
      | none => acc
      | some p => if p = 0 then acc else acc + a.quantity * p)
    0

/-- Keys of the `portfolio_value` dict (lines 61-69): the dates, ascending,
whose computed day value is strictly positive.  `sorted(portfolio_value.keys())`
at line 72 is the identity here because the dict is filled by iterating the
already ascending `all_dates`. -/
def portfolioDates (allocations : List Allocation)
    (price_history : List DailyReturn) : List ℕ :=
  (allDates price_history).filter
    (fun d => decide (0 < dayValue allocations price_history d))

/-- The `daily_returns` dict built by the loop at lines 73-78, as an
association list keyed by date: for each consecutive pair (yesterday, today)
of the given day list, when the value at yesterday is positive, map today to
`(value_today - value_yesterday) / value_yesterday`. -/
def dailyReturnsList (pv : ℕ → ℚ) : List ℕ → List (ℕ × ℚ)
  | [] => []
  | [_] => []
  | y :: t :: rest =>
    (if 0 < pv y then [(t, (pv t - pv y) / pv y)] else [])
      ++ dailyReturnsList pv (t :: rest)

/-- `calculate_daily_returns` (lines 39-83).  The `start_date`/`end_date`
parameters are accepted but never read by the Python body; they are kept for
signature fidelity.  Returns (daily_returns, start_value, end_value). -/
def calculate_daily_returns (allocations : List Allocation)
    (price_history : List DailyReturn) (start_date end_date : ℕ) :
    List (ℕ × ℚ) × ℚ × ℚ :=
  let sorted_days := portfolioDates allocations price_history
  let pv := dayValue allocations price_history
  let daily_returns := dailyReturnsList pv sorted_days
  let start_value := match sorted_days.head? with
    | some d => pv d
    | none => 0
  let end_value := match sorted_days.getLast? with
    | some d => pv d
    | none => 0
  (daily_returns, start_value, end_value)

/-- `calculate_twr` (lines 25-37): 0 on an empty dict, otherwise the product
of `1 + r` over the entries in ascending key order, minus 1.  The dict is an
association list with distinct keys; iterating its sorted keys and indexing is
iterating the entries sorted by key. -/
def calculate_twr (daily_returns : List (ℕ × ℚ)) : ℚ :=
  if daily_returns.isEmpty then 0
  else
    (List.insertionSort (fun p q => p.1 ≤ q.1) daily_returns).foldl
      (fun acc p => acc * (1 + p.2)) 1 - 1

/-! ### `app/api/v1/dashboard.py` -/

/-- `dict.get(k)` on an association list. -/
def dictFind? (m : List (ℕ × ℚ)) (k : ℕ) : Option ℚ :=
  (m.find? (fun p => p.1 = k)).map (fun p => p.2)

/-- `dict.get(k, d)` on an association list. -/
def dictGetD (m : List (ℕ × ℚ)) (k : ℕ) (d : ℚ) : ℚ :=
  (dictFind? m k).getD d

/-- Rows matching the WHERE clause of the inflows query of
`get_net_new_money_history` (lines 408-421): `purchase_date` in
`[start_date, end_date]` and `is_active == True`. -/
def qualifyingInflows (allocations : List Allocation) (start_date end_date : ℕ) :
    List Allocation :=
  allocations.filter
    (fun a => start_date ≤ a.purchase_date && a.purchase_date ≤ end_date
      && a.is_active)

/-- `inflows_data` (lines 408-424): the inflows query grouped by the period
bucket of `purchase_date` (`date_trunc`, abstracted as `bucket`), each bucket
mapped to the sum of `total_invested` over its rows, ordered by bucket. -/
def inflowsData (allocations : List Allocation) (bucket : ℕ → ℕ)
    (start_date end_date : ℕ) : List (ℕ × ℚ) :=
  (List.insertionSort (· ≤ ·)
      ((qualifyingInflows allocations start_date end_date).map
        (fun a => bucket a.purchase_date)).dedup).map
    (fun b =>
      (b, (((qualifyingInflows allocations start_date end_date).filter
              (fun a => bucket a.purchase_date = b)).map
            (fun a => a.total_invested)).sum))

/-- Per-row outflow value `quantity * exit_price`; a NULL `exit_price` row
contributes nothing to the SQL SUM. -/
def exitValue (a : Allocation) : ℚ :=
  match a.exit_price with
  | some p => a.quantity * p
  | none => 0

/-- Rows matching the WHERE clause of the outflows query (lines 427-443):
`exit_date` non-null and in `[start_date, end_date]`, `is_active == False`. -/
def qualifyingOutflows (allocations : List Allocation) (start_date end_date : ℕ) :
    List Allocation :=
  allocations.filter
    (fun a =>
      match a.exit_date with
      | some d => start_date ≤ d && d ≤ end_date && !a.is_active
      | none => false)

/-- `outflows_data` (lines 427-446): the outflows query grouped by the period
bucket of `exit_date`, each bucket mapped to the sum of
`quantity * exit_price` over its rows. -/
def outflowsData (allocations : List Allocation) (bucket : ℕ → ℕ)
    (start_date end_date : ℕ) : List (ℕ × ℚ) :=
  (List.insertionSort (· ≤ ·)
      ((qualifyingOutflows allocations start_date end_date).map
        (fun a => bucket (a.exit_date.getD 0))).dedup).map
    (fun b =>
      (b, (((qualifyingOutflows allocations start_date end_date).filter
              (fun a => bucket (a.exit_date.getD 0) = b)).map
            exitValue).sum))

/-- Response row of the net-new-money endpoint (`NetNewMoneyData`). -/
structure NetNewMoneyData where
  period : ℕ
  inflows : ℚ
  outflows : ℚ
  net_flow : ℚ
  cumulative_net : ℚ
deriving Repr, DecidableEq

/-- The response-building loop of `get_net_new_money_history`
(lines 450-466), with the running `cumulative_net` made explicit. -/
def nnmRows (inflows_data outflows_data : List (ℕ × ℚ)) (cum : ℚ) :
    List ℕ → List NetNewMoneyData
  | [] => []
  | d :: rest =>
    let inflows := dictGetD inflows_data d 0
    let outflows := dictGetD outflows_data d 0
    let net_flow := inflows - outflows
    { period := d
      inflows := inflows
      outflows := outflows
      net_flow := net_flow
      cumulative_net := cum + net_flow }
      :: nnmRows inflows_data outflows_data (cum + net_flow) rest

/-- `all_dates = set(inflows_data.keys()) | set(outflows_data.keys())` then
`for period_date in sorted(all_dates)` with `cumulative_net` starting at
`Decimal('0')` (lines 449-466). -/
def combineNnm (inflows_data outflows_data : List (ℕ × ℚ)) :
    List NetNewMoneyData :=
  nnmRows inflows_data outflows_data 0
    (List.insertionSort (· ≤ ·)
      ((inflows_data.map (fun p => p.1))
        ++ (outflows_data.map (fun p => p.1))).dedup)

/-- Commission row (`app/models/daily_return.py`, class `Commission`): only
the fields the top-advisors computation reads.  The creation schema
(`app/schemas/performance.py`) enforces `gross_revenue >= 0`. -/
structure Commission where
  advisor_id : ℕ
  gross_revenue : ℚ
deriving Repr, DecidableEq

/-- Per-advisor `revenue` aggregate of the top-advisors query
(`get_top_advisors`, lines 186-206): sum of `gross_revenue` over the
advisor's commission rows. -/
def advisorRevenue (commissions : List Commission) (aid : ℕ) : ℚ :=
  ((commissions.filter (fun c => c.advisor_id = aid)).map
    (fun c => c.gross_revenue)).sum

/-- The raw total-revenue scalar (line 209-210): sum of `gross_revenue` over
all commission rows. -/
def totalRevenueRaw (commissions : List Commission) : ℚ :=
  (commissions.map (fun c => c.gross_revenue)).sum

/-- `total_revenue_result.scalar() or Decimal('1')` (line 211): a falsy (zero)
total is replaced by 1 to avoid division by zero. -/
def totalRevenue (commissions : List Commission) : ℚ :=
  if totalRevenueRaw commissions = 0 then 1 else totalRevenueRaw commissions

/-- `revenue_percentage` (line 215): `revenue / total_revenue * 100` when
`total_revenue > 0`, else 0. -/
def revenuePercentage (commissions : List Commission) (aid : ℕ) : ℚ :=
  if 0 < totalRevenue commissions then
    advisorRevenue commissions aid / totalRevenue commissions * 100
  else 0

/-- Modelled from the spec (claim C5's reading of §4.4): inflow for a bucket
counting every allocation whose `purchase_date` falls in the bucket and which
is or was active, i.e. closed allocations included. -/
def specInflowBucket (allocations : List Allocation) (bucket : ℕ → ℕ)
    (start_date end_date b : ℕ) : ℚ :=
  ((allocations.filter
      (fun a => start_date ≤ a.purchase_date && a.purchase_date ≤ end_date
        && bucket a.purchase_date = b)).map
    (fun a => a.total_invested)).sum

/-! ### Concrete fixtures used by witnesses and counterexamples -/

/-- An open position with quantity 50, purchase price 20 (total_invested
1000) and fees 10, matching the worked example of the spec. -/
def exampleOpenAllocation : Allocation :=
  { asset_id := 1
    quantity := 50
    purchase_price := 20
    purchase_date := 0
    total_invested := 1000
    fees := 10
    is_active := true
    exit_price := none
    exit_date := none
    exit_fees := 0
    unrealized_gain_loss := some 100
    unrealized_gain_loss_percent := some 10
    realized_gain_loss := none }

/-- A position that has already been closed. -/
def exampleClosedAllocation : Allocation :=
  { asset_id := 1
    quantity := 2
    purchase_price := 50
    purchase_date := 5
    total_invested := 100
    fees := 0
    is_active := false
    exit_price := some 60
    exit_date := some 7
    exit_fees := 0
    unrealized_gain_loss := none
    unrealized_gain_loss_percent := none
    realized_gain_loss := some 20 }

/-- One allocation (quantity 10 of asset 1) and two price bars for asset 1:
close 100 on day 1 and close 120 on day 3, with day 2 absent. -/
def exampleAllocation : Allocation :=
  { asset_id := 1
    quantity := 10
    purchase_price := 100
    purchase_date := 0
    total_invested := 1000
    fees := 0
    is_active := true
    exit_price := none
    exit_date := none
    exit_fees := 0
    unrealized_gain_loss := none
    unrealized_gain_loss_percent := none
    realized_gain_loss := none }

/-- Price history for `exampleAllocation`: day 1 at 100, day 3 at 120. -/
def exampleBars : List DailyReturn :=
  [{ asset_id := 1, date := 1, close_price := 100 },
   { asset_id := 1, date := 3, close_price := 120 }]

/-! ### Claim theorems -/

/-- C1: for every open allocation and every `exit_price > 0`, optional
`exit_date` and `exit_fees ≥ 0`, `close_position` flips `is_active` to false,
stores `exit_price`, `exit_date` (defaulting to `now`) and `exit_fees`
(defaulting to 0), sets
`realized_gain_loss = quantity * exit_price - (total_invested + fees + exit_fees)`,
and clears both unrealized fields. -/
theorem close_position_spec (a : Allocation) (exit_price : ℚ)
    (exit_date : Option ℕ) (exit_fees : ℚ) (now : ℕ)
    (hopen : a.is_active = true) (hp : 0 < exit_price) (hf : 0 ≤ exit_fees) :
    (a.close_position exit_price exit_date (some exit_fees) now).is_active = false
    ∧ (a.close_position exit_price exit_date (some exit_fees) now).exit_price
        = some exit_price
    ∧ (a.close_position exit_price exit_date (some exit_fees) now).exit_date
        = some (exit_date.getD now)
    ∧ (a.close_position exit_price none (some exit_fees) now).exit_date = some now
    ∧ (a.close_position exit_price exit_date (some exit_fees) now).exit_fees
        = exit_fees
    ∧ (a.close_position exit_price exit_date none now).exit_fees = 0
    ∧ (a.close_position exit_price exit_date (some exit_fees) now).realized_gain_loss
        = some (a.quantity * exit_price - (a.total_invested + a.fees + exit_fees))
    ∧ (a.close_position exit_price exit_date (some exit_fees) now).unrealized_gain_loss
        = none
    ∧ (a.close_position exit_price exit_date (some exit_fees)
        now).unrealized_gain_loss_percent = none := by
  refine ⟨rfl, rfl, rfl, rfl, rfl, rfl, ?_, rfl, rfl⟩
  simp [Allocation.close_position, Allocation.total_cost, add_assoc]

/-- C1 witness: closing the quantity-50, total_invested-1000, fees-10 position
at exit price 25 with exit fees 5 yields realized_gain_loss 235. -/
theorem close_position_spec_witness :
    exampleOpenAllocation.is_active = true ∧ (0:ℚ) < 25 ∧ (0:ℚ) ≤ 5
    ∧ (exampleOpenAllocation.close_position 25 none (some 5) 9).realized_gain_loss
        = some 235 :=
  ⟨rfl, by norm_num, by norm_num,
    ((close_position_spec exampleOpenAllocation 25 none 5 9 rfl (by norm_num)
      (by norm_num)).2.2.2.2.2.2.1).trans (by norm_num [exampleOpenAllocation])⟩

/-- C6: invoking the close endpoint on an allocation whose `is_active` flag is
already false is rejected with the distinct `alreadyClosed` error and the
stored allocation is returned entirely unchanged — in particular its realized
figures are not re-computed. -/
theorem close_allocation_already_closed (a : Allocation)
    (close_data : AllocationClose) (now : ℕ) (hclosed : a.is_active = false) :
    close_allocation (some a) close_data now
      = (Except.error CloseError.alreadyClosed, some a)
    ∧ CloseError.alreadyClosed ≠ CloseError.notFound := by
  exact ⟨by simp [close_allocation, hclosed], by decide⟩

/-- C6 witness: the already-closed fixture is rejected unchanged. -/
theorem close_allocation_already_closed_witness :
    exampleClosedAllocation.is_active = false
    ∧ close_allocation (some exampleClosedAllocation)
        { exit_price := 25, exit_date := none, exit_fees := 5 } 9
      = (Except.error CloseError.alreadyClosed, some exampleClosedAllocation) :=
  ⟨rfl,
    (close_allocation_already_closed exampleClosedAllocation
      { exit_price := 25, exit_date := none, exit_fees := 5 } 9 rfl).1⟩

/-- C7: an allocation created with positive quantity and purchase price and
nonnegative fees has `total_invested = quantity * purchase_price`, and against
any positive current price
`gain_loss_amount = quantity * current_price - (quantity * purchase_price + fees)`
and `gain_loss_percent = gain_loss_amount / total_cost * 100` (the `total_cost
> 0` branch always applies; the other branch returns 0). -/
theorem create_allocation_gain_loss_spec (d : AllocationCreate) (asset : Asset)
    (cp : ℚ) (a : Allocation) (hq : 0 < d.quantity) (hp : 0 < d.purchase_price)
    (hf : 0 ≤ d.fees) (hcp : 0 < cp)
    (hok : create_allocation (some ()) (some asset) d = Except.ok a) :
    a.total_invested = d.quantity * d.purchase_price
    ∧ a.gain_loss_amount (some { current_price := some cp })
        = d.quantity * cp - (d.quantity * d.purchase_price + d.fees)
    ∧ 0 < a.total_cost
    ∧ a.gain_loss_percent (some { current_price := some cp })
        = a.gain_loss_amount (some { current_price := some cp })
            / a.total_cost * 100
    ∧ (∀ (b : Allocation) (asset' : Option Asset),
        ¬ 0 < b.total_cost → b.gain_loss_percent asset' = 0) := by
  simp only [create_allocation, Except.ok.injEq] at hok
  subst hok
  have hcost : (0:ℚ) < d.quantity * d.purchase_price + d.fees :=
    add_pos_of_pos_of_nonneg (mul_pos hq hp) hf
  refine ⟨rfl, ?_, ?_, ?_, ?_⟩
  · simp [Allocation.gain_loss_amount, Allocation.current_value,
      Allocation.total_cost, hcp.ne']
  · simpa [Allocation.total_cost] using hcost
  · rw [Allocation.gain_loss_percent, if_pos]
    simpa [Allocation.total_cost] using hcost
  · intro b asset' hb
    rw [Allocation.gain_loss_percent, if_neg hb]

/-- C7 witness: quantity 4 at purchase price 25 with fees 10, current price
30: amount = 4*30 - (4*25 + 10) = 10, percent = 10 / 110 * 100. -/
theorem create_allocation_gain_loss_spec_witness :
    (0:ℚ) < 4 ∧ (0:ℚ) < 25 ∧ (0:ℚ) ≤ 10 ∧ (0:ℚ) < 30
    ∧ create_allocation (some ()) (some { current_price := some 30 })
        { asset_id := 1, quantity := 4, purchase_price := 25, purchase_date := 0,
          fees := 10 }
      = Except.ok
        { asset_id := 1, quantity := 4, purchase_price := 25, purchase_date := 0,
          total_invested := 100, fees := 10, is_active := true,
          exit_price := none, exit_date := none, exit_fees := 0,
          unrealized_gain_loss := none, unrealized_gain_loss_percent := none,
          realized_gain_loss := none }
    ∧ ({ asset_id := 1, quantity := 4, purchase_price := 25, purchase_date := 0,
          total_invested := 100, fees := 10, is_active := true,
          exit_price := none, exit_date := none, exit_fees := 0,
          unrealized_gain_loss := none, unrealized_gain_loss_percent := none,
          realized_gain_loss := none } : Allocation).gain_loss_amount
        (some { current_price := some 30 })
      = (4:ℚ) * 30 - (4 * 25 + 10) := by
  refine ⟨by norm_num, by norm_num, by norm_num, by norm_num,
    by norm_num [create_allocation], ?_⟩
  exact ((create_allocation_gain_loss_spec
    { asset_id := 1, quantity := 4, purchase_price := 25, purchase_date := 0,
      fees := 10 }
    { current_price := some 30 } 30 _ (by norm_num) (by norm_num) (by norm_num)
    (by norm_num) (by norm_num [create_allocation])).2.1)

/-- A list of nonnegative rationals summing to zero is all zeros. -/
theorem all_zero_of_sum_eq_zero {l : List ℚ} (h0 : ∀ x ∈ l, 0 ≤ x)
    (hs : l.sum = 0) : ∀ x ∈ l, x = 0 := by
  induction l with
  | nil => intro x hx; cases hx
  | cons y ys ih =>
    have hy : 0 ≤ y := h0 y (List.mem_cons_self y ys)
    have hys : 0 ≤ ys.sum := List.sum_nonneg fun x hx => h0 x (List.mem_cons_of_mem y hx)
    have hsum : y + ys.sum = 0 := by simpa using hs
    have hy0 : y = 0 := le_antisymm (by linarith) hy
    have hys0 : ys.sum = 0 := by linarith
    intro x hx
    rcases List.mem_cons.mp hx with rfl | hx
    · exact hy0
    · exact ih (fun z hz => h0 z (List.mem_cons_of_mem y hz)) hys0 x hx

/-- C9: with every `gross_revenue` nonnegative (the creation-schema
constraint), a zero total gross revenue makes the divisor 1 and every
advisor's `revenue_percentage` 0; and the divisor is nonzero for every input,
so the division is always safe. -/
theorem top_advisors_zero_revenue_safe :
    (∀ commissions : List Commission,
      (∀ c ∈ commissions, 0 ≤ c.gross_revenue) →
      totalRevenueRaw commissions = 0 →
      totalRevenue commissions = 1
        ∧ ∀ aid, revenuePercentage commissions aid = 0)
    ∧ ∀ commissions : List Commission, totalRevenue commissions ≠ 0 := by
  constructor
  · intro commissions h0 hraw
    have htot : totalRevenue commissions = 1 := by simp [totalRevenue, hraw]
    refine ⟨htot, fun aid => ?_⟩
    have hall : ∀ x ∈ commissions.map (fun c => c.gross_revenue), x = 0 :=
      all_zero_of_sum_eq_zero
        (by
          intro x hx
          rcases List.mem_map.mp hx with ⟨c, hc, rfl⟩
          exact h0 c hc)
        hraw
    have hadv : advisorRevenue commissions aid = 0 := by
      apply List.sum_eq_zero
      intro x hx
      rcases List.mem_map.mp hx with ⟨c, hc, rfl⟩
      exact hall _ (List.mem_map.mpr ⟨c, List.mem_of_mem_filter hc, rfl⟩)
    rw [revenuePercentage, if_pos (by rw [htot]; norm_num), hadv, htot]
    norm_num
  · intro commissions
    rw [totalRevenue]
    split
    · norm_num
    · assumption

/-- C9 witness: a single zero-revenue commission row. -/
theorem top_advisors_zero_revenue_safe_witness :
    (∀ c ∈ [({ advisor_id := 1, gross_revenue := 0 } : Commission)],
      0 ≤ c.gross_revenue)
    ∧ totalRevenueRaw [({ advisor_id := 1, gross_revenue := 0 } : Commission)] = 0
    ∧ revenuePercentage [({ advisor_id := 1, gross_revenue := 0 } : Commission)] 1
        = 0 :=
  ⟨by simp, by simp [totalRevenueRaw],
    (top_advisors_zero_revenue_safe.1
      [({ advisor_id := 1, gross_revenue := 0 } : Commission)]
      (by simp) (by simp [totalRevenueRaw])).2 1⟩

/-- Folding `acc * (1 + r)` over a list is multiplying by the product of the
`1 + r`. -/
theorem foldl_mul_one_add (l : List (ℕ × ℚ)) (a : ℚ) :
    l.foldl (fun acc p => acc * (1 + p.2)) a
      = a * (l.map (fun p => 1 + p.2)).prod := by
  induction l generalizing a with
  | nil => simp
  | cons p ps ih => simp [ih, mul_assoc]

/-- C2: `calculate_twr` of a finite map of daily returns is the product of
`1 + r` over all entries (ascending key order — irrelevant to the product)
minus 1; in particular it is 0 on the empty map, `r` on a single return, and
`(1 + r₁) * (1 + r₂) - 1` on two returns. -/
theorem calculate_twr_spec :
    (∀ l : List (ℕ × ℚ), (l.map Prod.fst).Nodup →
      calculate_twr l = (l.map (fun p => 1 + p.2)).prod - 1)
    ∧ calculate_twr [] = 0
    ∧ (∀ d r, calculate_twr [(d, r)] = r)
    ∧ ∀ d₁ d₂ r₁ r₂, d₁ ≠ d₂ →
        calculate_twr [(d₁, r₁), (d₂, r₂)] = (1 + r₁) * (1 + r₂) - 1 := by
  have hmain : ∀ l : List (ℕ × ℚ),
      calculate_twr l = (l.map (fun p => 1 + p.2)).prod - 1 := by
    intro l
    cases l with
    | nil => simp [calculate_twr]
    | cons p ps =>
      rw [calculate_twr, if_neg (by simp), foldl_mul_one_add, one_mul]
      congr 1
      exact List.Perm.prod_eq ((List.perm_insertionSort _ _).map _)
  refine ⟨fun l _ => hmain l, by simp [calculate_twr], fun d r => ?_,
    fun d₁ d₂ r₁ r₂ _ => ?_⟩
  · rw [hmain]; simp
  · rw [hmain]; simp

/-- C2 witness: two returns 1/2 and 1/4 under distinct dates chain-link to
`(1 + 1/2) * (1 + 1/4) - 1 = 7/8`. -/
theorem calculate_twr_spec_witness :
    (1 : ℕ) ≠ 2
    ∧ calculate_twr [(1, 1/2), (2, 1/4)] = (1 + 1/2) * (1 + 1/4) - 1
    ∧ ((1:ℚ) + 1/2) * (1 + 1/4) - 1 = 7/8 :=
  ⟨by decide, calculate_twr_spec.2.2.2 1 2 (1/2) (1/4) (by decide), by norm_num⟩

/-! ### Structure lemmas for the portfolio time series -/

/-- Membership in `allDates` is having a price bar on that date. -/
theorem mem_allDates {price_history : List DailyReturn} {d : ℕ} :
    d ∈ allDates price_history ↔ d ∈ price_history.map DailyReturn.date := by
  rw [allDates, (List.perm_insertionSort _ _).mem_iff, List.mem_dedup]

/-- `allDates` has no duplicate dates. -/
theorem nodup_allDates (price_history : List DailyReturn) :
    (allDates price_history).Nodup :=
  (List.perm_insertionSort _ _).nodup_iff.mpr (List.nodup_dedup _)

/-- Membership in the portfolio-value series: a bar date with positive
computed day value. -/
theorem mem_portfolioDates {allocations : List Allocation}
    {price_history : List DailyReturn} {d : ℕ} :
    d ∈ portfolioDates allocations price_history
      ↔ d ∈ allDates price_history
          ∧ 0 < dayValue allocations price_history d := by
  simp [portfolioDates, List.mem_filter]

/-- The portfolio-value series has no duplicate dates. -/
theorem nodup_portfolioDates (allocations : List Allocation)
    (price_history : List DailyReturn) :
    (portfolioDates allocations price_history).Nodup :=
  (nodup_allDates price_history).filter _

/-- The dates keyed by `dailyReturnsList` form a sublist of the tail of the
input day list. -/
theorem dailyReturnsList_keys_sublist (pv : ℕ → ℚ) :
    ∀ l : List ℕ, ((dailyReturnsList pv l).map Prod.fst).Sublist l.tail
  | [] => by simp [dailyReturnsList]
  | [x] => by simp [dailyReturnsList]
  | y :: t :: rest => by
    rw [dailyReturnsList, List.map_append, List.tail_cons]
    have ih : ((dailyReturnsList pv (t :: rest)).map Prod.fst).Sublist rest := by
      simpa using dailyReturnsList_keys_sublist pv (t :: rest)
    by_cases hy : 0 < pv y
    · simpa [hy] using List.Sublist.cons₂ t ih
    · simpa [hy] using List.Sublist.cons t ih

/-- Every entry of `dailyReturnsList` comes from a consecutive pair of the day
list whose earlier value is positive. -/
theorem of_mem_dailyReturnsList {pv : ℕ → ℚ} :
    ∀ {l : List ℕ} {p : ℕ × ℚ}, p ∈ dailyReturnsList pv l →
      ∃ (i : ℕ) (h : i + 1 < l.length),
        0 < pv (l.get ⟨i, Nat.lt_of_succ_lt h⟩)
        ∧ p = (l.get ⟨i + 1, h⟩,
            (pv (l.get ⟨i + 1, h⟩) - pv (l.get ⟨i, Nat.lt_of_succ_lt h⟩))
              / pv (l.get ⟨i, Nat.lt_of_succ_lt h⟩))
  | [], p, hp => by simp [dailyReturnsList] at hp
  | [x], p, hp => by simp [dailyReturnsList] at hp
  | y :: t :: rest, p, hp => by
    rw [dailyReturnsList, List.mem_append] at hp
    rcases hp with hp | hp
    · by_cases hy : 0 < pv y
      · rw [if_pos hy, List.mem_singleton] at hp
        exact ⟨0, by simp, hy, hp⟩
      · rw [if_neg hy] at hp
        cases hp
    · rcases of_mem_dailyReturnsList hp with ⟨i, h, hpos, hval⟩
      exact ⟨i + 1, Nat.succ_lt_succ h, hpos, hval⟩

/-- Conversely, every consecutive pair with a positive earlier value
contributes its entry. -/
theorem mem_dailyReturnsList_of_adjacent {pv : ℕ → ℚ} :
    ∀ {l : List ℕ} (i : ℕ) (h : i + 1 < l.length),
      0 < pv (l.get ⟨i, Nat.lt_of_succ_lt h⟩) →
      (l.get ⟨i + 1, h⟩,
          (pv (l.get ⟨i + 1, h⟩) - pv (l.get ⟨i, Nat.lt_of_succ_lt h⟩))
            / pv (l.get ⟨i, Nat.lt_of_succ_lt h⟩))
        ∈ dailyReturnsList pv l
  | [], i, h => by simp at h
  | [x], i, h => by simp at h
  | y :: t :: rest, 0, h => by
    intro hy
    have hy' : 0 < pv y := hy
    have hmem : (t, (pv t - pv y) / pv y) ∈ dailyReturnsList pv (y :: t :: rest) := by
      rw [dailyReturnsList, if_pos hy']
      exact List.mem_append_left _ (List.mem_singleton_self _)
    exact hmem
  | y :: t :: rest, i + 1, h => by
    intro hpos
    rw [dailyReturnsList, List.mem_append]
    right
    exact mem_dailyReturnsList_of_adjacent i (Nat.lt_of_succ_lt_succ h) hpos

/-- Looking up a key of an association list with distinct keys finds its
value. -/
theorem dictFind?_eq_some_of_mem :
    ∀ {m : List (ℕ × ℚ)} {k : ℕ} {v : ℚ},
      (m.map Prod.fst).Nodup → (k, v) ∈ m → dictFind? m k = some v
  | [], k, v, _, hmem => by cases hmem
  | (k', v') :: tl, k, v, hnd, hmem => by
    rcases List.nodup_cons.mp hnd with ⟨hk', hnd'⟩
    by_cases hkk : k' = k
    · subst hkk
      rcases List.mem_cons.mp hmem with heq | htl
      · rw [dictFind?, List.find?_cons_of_pos _ (by simp)]
        cases heq
        rfl
      · exact absurd (List.mem_map.mpr ⟨(k', v), htl, rfl⟩) hk'
    · rcases List.mem_cons.mp hmem with heq | htl
      · cases heq
        exact absurd rfl hkk
      · rw [dictFind?, List.find?_cons_of_neg _ (by simp [hkk])]
        exact dictFind?_eq_some_of_mem hnd' htl

/-- A key that no entry carries looks up to `none`. -/
theorem dictFind?_eq_none_of_forall {m : List (ℕ × ℚ)} {k : ℕ}
    (h : ∀ p ∈ m, p.1 ≠ k) : dictFind? m k = none := by
  rw [dictFind?, List.find?_eq_none.mpr (by simpa using h)]
  rfl

/-- C3: in the daily-returns map, each date that follows another date of the
portfolio-value series (whose value there is positive — automatic for the
series the code builds) is mapped to
`(value_today - value_yesterday) / value_yesterday`; a date whose
predecessor's value is not positive gets no entry; and on the day1=1000 /
day3=1200 fixture the sole daily return is 1/5 = 0.20 at day 3. -/
theorem daily_returns_consecutive_spec :
    (∀ (allocations : List Allocation) (price_history : List DailyReturn)
        (start_date end_date i : ℕ)
        (h : i + 1 < (portfolioDates allocations price_history).length),
      dictFind?
          (calculate_daily_returns allocations price_history start_date
            end_date).1
          ((portfolioDates allocations price_history).get ⟨i + 1, h⟩)
        = some
          ((dayValue allocations price_history
              ((portfolioDates allocations price_history).get ⟨i + 1, h⟩)
            - dayValue allocations price_history
              ((portfolioDates allocations price_history).get
                ⟨i, Nat.lt_of_succ_lt h⟩))
          / dayValue allocations price_history
              ((portfolioDates allocations price_history).get
                ⟨i, Nat.lt_of_succ_lt h⟩)))
    ∧ (∀ (pv : ℕ → ℚ) (days : List ℕ), days.Nodup →
        ∀ (i : ℕ) (h : i + 1 < days.length),
          ¬ 0 < pv (days.get ⟨i, Nat.lt_of_succ_lt h⟩) →
          dictFind? (dailyReturnsList pv days) (days.get ⟨i + 1, h⟩) = none)
    ∧ (calculate_daily_returns [exampleAllocation] exampleBars 1 3).1
        = [(3, 1/5)] := by
  refine ⟨?_, ?_, ?_⟩
  · intro allocations price_history start_date end_date i h
    have hnodup : (portfolioDates allocations price_history).Nodup :=
      nodup_portfolioDates allocations price_history
    have hkeys :
        ((dailyReturnsList (dayValue allocations price_history)
            (portfolioDates allocations price_history)).map Prod.fst).Nodup :=
      ((dailyReturnsList_keys_sublist _ _).trans
        (List.tail_sublist _)).nodup hnodup
    have hpos : 0 < dayValue allocations price_history
        ((portfolioDates allocations price_history).get
          ⟨i, Nat.lt_of_succ_lt h⟩) :=
      (mem_portfolioDates.mp (List.get_mem _ _ _)).2
    exact dictFind?_eq_some_of_mem hkeys
      (mem_dailyReturnsList_of_adjacent i h hpos)
  · intro pv days hnodup i h hneg
    apply dictFind?_eq_none_of_forall
    intro p hp
    rcases of_mem_dailyReturnsList hp with ⟨j, hj, hjpos, rfl⟩
    intro hkey
    have : (⟨j + 1, hj⟩ : Fin days.length) = ⟨i + 1, h⟩ :=
      (hnodup.get_inj_iff).mp hkey
    have hji : j = i := by
      have := Fin.mk.injEq .. ▸ this
      omega
    subst hji
    exact hneg hjpos
  · norm_num [calculate_daily_returns, portfolioDates, allDates, dayValue,
      priceOf, dailyReturnsList, exampleAllocation, exampleBars,
      List.insertionSort, List.orderedInsert, List.dedup]

/-- C3 witness: on the fixture, date 3 (successor of date 1, value 1000)
looks up to (1200 - 1000) / 1000 = 1/5. -/
theorem daily_returns_consecutive_spec_witness :
    1 < (portfolioDates [exampleAllocation] exampleBars).length
    ∧ dictFind? (calculate_daily_returns [exampleAllocation] exampleBars 1 3).1 3
        = some (1/5) := by
  have hlen : 0 + 1 < (portfolioDates [exampleAllocation] exampleBars).length := by
    norm_num [portfolioDates, allDates, dayValue, priceOf, exampleAllocation,
      exampleBars, List.insertionSort, List.orderedInsert, List.dedup]
  have h := daily_returns_consecutive_spec.1 [exampleAllocation] exampleBars
    1 3 0 hlen
  refine ⟨hlen, ?_⟩
  rw [show ((portfolioDates [exampleAllocation] exampleBars).get
      ⟨0 + 1, hlen⟩) = 3 by
    norm_num [portfolioDates, allDates, dayValue, priceOf, exampleAllocation,
      exampleBars, List.insertionSort, List.orderedInsert, List.dedup]] at h
  rw [h]
  norm_num [portfolioDates, allDates, dayValue, priceOf, exampleAllocation,
    exampleBars, List.insertionSort, List.orderedInsert, List.dedup]

/-- C4: the portfolio-value series keeps exactly the bar dates with strictly
positive computed value: every kept date has positive value and a covering
price bar, and a date whose computed value is 0 (including one with no
covering bar at all) is absent rather than present with value 0. -/
theorem portfolio_series_sparse_positive :
    ∀ (allocations : List Allocation) (price_history : List DailyReturn)
      (d : ℕ),
      (d ∈ portfolioDates allocations price_history →
        0 < dayValue allocations price_history d
          ∧ d ∈ price_history.map DailyReturn.date)
      ∧ (dayValue allocations price_history d = 0 →
          d ∉ portfolioDates allocations price_history) := by
  intro allocations price_history d
  constructor
  · intro hd
    rcases mem_portfolioDates.mp hd with ⟨hdates, hpos⟩
    exact ⟨hpos, mem_allDates.mp hdates⟩
  · intro hzero hd
    exact absurd (mem_portfolioDates.mp hd).2 (by rw [hzero]; exact lt_irrefl 0)

/-- C4 witness: day 1 of the fixture is kept (value 1000, bar present) while
day 2, which no bar covers, has computed value 0 and is absent — a gap, not a
zero entry. -/
theorem portfolio_series_sparse_positive_witness :
    1 ∈ portfolioDates [exampleAllocation] exampleBars
    ∧ 0 < dayValue [exampleAllocation] exampleBars 1
    ∧ dayValue [exampleAllocation] exampleBars 2 = 0
    ∧ 2 ∉ portfolioDates [exampleAllocation] exampleBars := by
  have hmem : 1 ∈ portfolioDates [exampleAllocation] exampleBars := by
    norm_num [portfolioDates, allDates, dayValue, priceOf, exampleAllocation,
      exampleBars, List.insertionSort, List.orderedInsert, List.dedup]
  have hzero : dayValue [exampleAllocation] exampleBars 2 = 0 := by
    norm_num [dayValue, priceOf, exampleAllocation, exampleBars]
  exact ⟨hmem,
    ((portfolio_series_sparse_positive [exampleAllocation] exampleBars 1).1
      hmem).1,
    hzero,
    (portfolio_series_sparse_positive [exampleAllocation] exampleBars 2).2
      hzero⟩

/-- When every day of the list has positive value, every consecutive pair
produces an entry, so the returns list has `length - 1` entries. -/
theorem dailyReturnsList_length (pv : ℕ → ℚ) :
    ∀ l : List ℕ, (∀ d ∈ l, 0 < pv d) →
      (dailyReturnsList pv l).length = l.length - 1
  | [] => by simp [dailyReturnsList]
  | [x] => by simp [dailyReturnsList]
  | y :: t :: rest => by
    intro hall
    rw [dailyReturnsList, if_pos (hall y (List.mem_cons_self y _))]
    have ih := dailyReturnsList_length pv (t :: rest)
      (fun d hd => hall d (List.mem_cons_of_mem y hd))
    simp only [List.length_append, List.length_singleton, ih]
    simp [Nat.add_comm]

/-- C10: the daily-returns map of `calculate_daily_returns` has exactly
`n - 1` entries (truncated at 0) for `n` the length of the portfolio-value
series: every kept value is strictly positive, so the positive-prior-day
guard never skips a pair. -/
theorem daily_returns_count_spec :
    ∀ (allocations : List Allocation) (price_history : List DailyReturn)
      (start_date end_date : ℕ),
      (calculate_daily_returns allocations price_history start_date
          end_date).1.length
        = (portfolioDates allocations price_history).length - 1 := by
  intro allocations price_history start_date end_date
  exact dailyReturnsList_length _ _
    (fun d hd => (mem_portfolioDates.mp hd).2)

/-! ### Net-new-money combination lemmas -/

/-- Every response row sets `net_flow = inflows - outflows`. -/
theorem nnmRows_net_flow (inflows_data outflows_data : List (ℕ × ℚ)) :
    ∀ (dates : List ℕ) (c : ℚ) (row : NetNewMoneyData),
      row ∈ nnmRows inflows_data outflows_data c dates →
      row.net_flow = row.inflows - row.outflows
  | [], _, _, hmem => by cases hmem
  | d :: rest, c, row, hmem => by
    simp only [nnmRows] at hmem
    rcases List.mem_cons.mp hmem with rfl | hmem
    · rfl
    · exact nnmRows_net_flow inflows_data outflows_data rest _ row hmem

/-- The periods of the response rows are exactly the iterated dates. -/
theorem nnmRows_map_period (inflows_data outflows_data : List (ℕ × ℚ)) :
    ∀ (dates : List ℕ) (c : ℚ),
      (nnmRows inflows_data outflows_data c dates).map (fun r => r.period)
        = dates
  | [], _ => rfl
  | d :: rest, c => by
    simp only [nnmRows, List.map_cons,
      nnmRows_map_period inflows_data outflows_data rest]

/-- `cumulative_net` at index `i` is the seed plus the sum of the first
`i + 1` net flows. -/
theorem nnmRows_cumulative (inflows_data outflows_data : List (ℕ × ℚ)) :
    ∀ (dates : List ℕ) (c : ℚ) (i : ℕ)
      (h : i < (nnmRows inflows_data outflows_data c dates).length),
      ((nnmRows inflows_data outflows_data c dates).get ⟨i, h⟩).cumulative_net
        = c + (((nnmRows inflows_data outflows_data c dates).take (i + 1)).map
            (fun r => r.net_flow)).sum
  | [], _, i, h => by simp [nnmRows] at h
  | d :: rest, c, 0, h => by
    simp [nnmRows]
  | d :: rest, c, i + 1, h => by
    simp only [nnmRows] at h ⊢
    rw [List.get_cons_succ]
    rw [nnmRows_cumulative inflows_data outflows_data rest _ i
      (Nat.lt_of_succ_lt_succ h)]
    simp [add_assoc]

/-- The last `cumulative_net` (seed if there are no rows) is the seed plus the
sum of all net flows. -/
theorem nnmRows_last_cumulative (inflows_data outflows_data : List (ℕ × ℚ)) :
    ∀ (dates : List ℕ) (c : ℚ),
      ((nnmRows inflows_data outflows_data c dates).map
          (fun r => r.cumulative_net)).getLastD c
        = c + ((nnmRows inflows_data outflows_data c dates).map
            (fun r => r.net_flow)).sum
  | [], c => by simp [nnmRows]
  | d :: rest, c => by
    simp only [nnmRows, List.map_cons, List.getLastD_cons,
      nnmRows_last_cumulative inflows_data outflows_data rest]
    simp [add_assoc]

/-- C8: in the combined net-new-money series, every bucket has
`net_flow = inflows - outflows`; `cumulative_net` is the running sum of
`net_flow` seeded with 0 before the first bucket; the last bucket's
`cumulative_net` is the sum of all `net_flow`s; and the bucket keys are
exactly the union of the keys of the inflow and outflow series. -/
theorem net_new_money_combination_spec :
    ∀ (inflows_data outflows_data : List (ℕ × ℚ)),
      (∀ row ∈ combineNnm inflows_data outflows_data,
        row.net_flow = row.inflows - row.outflows)
      ∧ (∀ (i : ℕ) (h : i < (combineNnm inflows_data outflows_data).length),
          ((combineNnm inflows_data outflows_data).get ⟨i, h⟩).cumulative_net
            = (((combineNnm inflows_data outflows_data).take (i + 1)).map
                (fun r => r.net_flow)).sum)
      ∧ ((combineNnm inflows_data outflows_data).map
            (fun r => r.cumulative_net)).getLastD 0
          = ((combineNnm inflows_data outflows_data).map
              (fun r => r.net_flow)).sum
      ∧ ∀ d, d ∈ (combineNnm inflows_data outflows_data).map
            (fun r => r.period)
          ↔ d ∈ inflows_data.map Prod.fst ∨ d ∈ outflows_data.map Prod.fst := by
  intro inflows_data outflows_data
  refine ⟨fun row hrow => nnmRows_net_flow _ _ _ _ row hrow,
    fun i h => ?_, ?_, fun d => ?_⟩
  · simp only [combineNnm] at h ⊢
    rw [nnmRows_cumulative _ _ _ _ i h, zero_add]
  · simp only [combineNnm]
    rw [nnmRows_last_cumulative, zero_add]
  · simp only [combineNnm]
    rw [nnmRows_map_period,
      (List.perm_insertionSort _ _).mem_iff, List.mem_dedup, List.mem_append]

/-- C8 witness: with inflow series {1 ↦ 100} and outflow series {2 ↦ 30}, the
first combined row has net_flow = 100 - 0, and bucket 2 (present only in the
outflow series) appears. -/
theorem net_new_money_combination_spec_witness :
    (⟨1, 100, 0, 100, 100⟩ : NetNewMoneyData) ∈ combineNnm [(1, 100)] [(2, 30)]
    ∧ (⟨1, 100, 0, 100, 100⟩ : NetNewMoneyData).net_flow
      = (⟨1, 100, 0, 100, 100⟩ : NetNewMoneyData).inflows
        - (⟨1, 100, 0, 100, 100⟩ : NetNewMoneyData).outflows
    ∧ 2 ∈ (combineNnm [(1, 100)] [(2, 30)]).map (fun r => r.period) := by
  have hev : combineNnm [(1, 100)] [(2, 30)]
      = [⟨1, 100, 0, 100, 100⟩, ⟨2, 0, 30, -30, 70⟩] := by
    norm_num [combineNnm, nnmRows, dictGetD, dictFind?, List.insertionSort,
      List.orderedInsert, List.dedup]
  have hmem : (⟨1, 100, 0, 100, 100⟩ : NetNewMoneyData)
      ∈ combineNnm [(1, 100)] [(2, 30)] := by
    rw [hev]; exact List.mem_cons_self _ _
  refine ⟨hmem,
    (net_new_money_combination_spec [(1, 100)] [(2, 30)]).1 _ hmem, ?_⟩
  exact ((net_new_money_combination_spec [(1, 100)] [(2, 30)]).2.2.2 2).mpr
    (Or.inr (by simp))

/-! ### Net-new-money inflows (claim C5) -/

/-- A still-active position purchased on day 5 for 100. -/
def exampleActiveAllocation : Allocation :=
  { asset_id := 1
    quantity := 2
    purchase_price := 50
    purchase_date := 5
    total_invested := 100
    fees := 0
    is_active := true
    exit_price := none
    exit_date := none
    exit_fees := 0
    unrealized_gain_loss := none
    unrealized_gain_loss_percent := none
    realized_gain_loss := none }

/-- C5 counterexample: a single closed allocation purchased on day 5 for 100,
inside the range [0, 10] with day-granularity buckets.  The claim's reading
(closed allocations included) yields inflow 100 for bucket 5, but the code's
inflow query filters `is_active == True` and reports nothing for that bucket
(0 after the dict default). -/
theorem inflows_ignore_closed_counterexample :
    exampleClosedAllocation.is_active = false
    ∧ exampleClosedAllocation.purchase_date = 5
    ∧ specInflowBucket [exampleClosedAllocation] id 0 10 5 = 100
    ∧ inflowsData [exampleClosedAllocation] id 0 10 = []
    ∧ dictGetD (inflowsData [exampleClosedAllocation] id 0 10) 5 0 = 0
    ∧ dictGetD (inflowsData [exampleClosedAllocation] id 0 10) 5 0
        ≠ specInflowBucket [exampleClosedAllocation] id 0 10 5 := by
  refine ⟨rfl, rfl, ?_, ?_, ?_, ?_⟩ <;>
    norm_num [specInflowBucket, inflowsData, qualifyingInflows, dictGetD,
      dictFind?, exampleClosedAllocation, List.insertionSort,
      List.orderedInsert, List.dedup]

/-- The keys of `inflowsData` are the sorted distinct buckets of the
qualifying (active, in-range) allocations. -/
theorem inflowsData_keys (allocations : List Allocation) (bucket : ℕ → ℕ)
    (start_date end_date : ℕ) :
    (inflowsData allocations bucket start_date end_date).map Prod.fst
      = List.insertionSort (· ≤ ·)
          ((qualifyingInflows allocations start_date end_date).map
            (fun a => bucket a.purchase_date)).dedup := by
  rw [inflowsData, List.map_map]
  simp [Function.comp_def]

/-- C5 (amended): the inflow reported for a bucket is the sum of
`total_invested` over allocations whose `purchase_date` lies in the requested
range and falls in that bucket AND which are currently active; allocations
with `is_active = false` never qualify. -/
theorem inflows_active_only_spec :
    ∀ (allocations : List Allocation) (bucket : ℕ → ℕ)
      (start_date end_date b : ℕ) (v : ℚ),
      (dictFind? (inflowsData allocations bucket start_date end_date) b
          = some v →
        v = ((allocations.filter (fun a =>
              (bucket a.purchase_date = b)
                && (start_date ≤ a.purchase_date
                  && a.purchase_date ≤ end_date && a.is_active))).map
            (fun a => a.total_invested)).sum)
      ∧ ∀ a : Allocation, a.is_active = false →
          a ∉ qualifyingInflows allocations start_date end_date := by
  intro allocations bucket start_date end_date b v
  constructor
  · intro hfind
    rw [dictFind?] at hfind
    rcases Option.map_eq_some'.mp hfind with ⟨p, hp, hpv⟩
    have hpb : p.1 = b := by simpa using List.find?_some hp
    have hpmem := List.mem_of_find?_eq_some hp
    rw [inflowsData] at hpmem
    rcases List.mem_map.mp hpmem with ⟨key, _, hkeyp⟩
    have hkey : key = b := by rw [← hpb, ← hkeyp]
    subst hkey
    rw [← hkeyp] at hpv
    rw [← hpv]
    rw [qualifyingInflows, List.filter_filter]
  · intro a ha hmem
    rw [qualifyingInflows, List.mem_filter] at hmem
    simp [ha] at hmem

/-- C5 amended-claim witness: the active twin of the counterexample fixture is
reported, with inflow 100 at bucket 5. -/
theorem inflows_active_only_spec_witness :
    dictFind? (inflowsData [exampleActiveAllocation] id 0 10) 5 = some 100
    ∧ (100 : ℚ)
      = (([exampleActiveAllocation].filter (fun a =>
            (id a.purchase_date = 5)
              && (0 ≤ a.purchase_date && a.purchase_date ≤ 10
                && a.is_active))).map (fun a => a.total_invested)).sum := by
  have hfind : dictFind? (inflowsData [exampleActiveAllocation] id 0 10) 5
      = some 100 := by
    norm_num [dictFind?, inflowsData, qualifyingInflows,
      exampleActiveAllocation, List.insertionSort, List.orderedInsert,
      List.dedup]
  exact ⟨hfind,
    (inflows_active_only_spec [exampleActiveAllocation] id 0 10 5 100).1 hfind⟩

end InvestmentDashboard
